import Mathlib

/-!
Shallow embedding of the posthog-python analytics client core, for checking
the natural-language specification against the code.  The repository sources
available here are the module facade (posthog/proxy module) and its test
suite; the Client, Consumer, Queue and Normalizer bodies are absent, so those
parts are modelled from the specification, as marked on each definition.
-/

namespace Posthog

/-- Dynamic JSON-like property values, the payload type of record property
maps (strings, numbers, booleans, lists of strings, nested maps). -/
inductive PValue where
  | str : String → PValue
  | num : Int → PValue
  | bool : Bool → PValue
  | strList : List String → PValue
  | dict : List (String × PValue) → PValue

/-- A string-keyed property map, in insertion order (later entries override
earlier ones, as a Python dict update would). -/
abbrev PropMap := List (String × PValue)

/-- A flag-key to variant map as returned by the all-flags evaluation. -/
abbrev FlagMap := List (String × PValue)

/-- Python truthiness of a property value, used for the active-flag list. -/
def truthy : PValue → Bool
  | .str s => !(s == "")
  | .num n => n != 0
  | .bool b => b
  | .strList l => !l.isEmpty
  | .dict m => !m.isEmpty

/-- Lookup in a property map with dict-update semantics: the value of the
LAST binding of the key wins. -/
def getProp : PropMap → String → Option PValue
  | [], _ => none
  | (k, v) :: rest, key =>
      match getProp rest key with
      | some w => some w
      | none => if k = key then some v else none

/-! ### Decimal rendering of integer distinct ids -/

/-- The decimal digits of `n`, least significant first, computed with `fuel`
division steps (enough whenever `n ≤ fuel`).  `n = 0` yields `[]`. -/
def decDigitsRev : Nat → Nat → List Nat
  | 0, _ => []
  | fuel + 1, n => if n = 0 then [] else n % 10 :: decDigitsRev fuel (n / 10)

/-- The character for a single decimal digit. -/
def decDigitChar (d : Nat) : Char := Char.ofNat (48 + d)

/-- Modelled from the spec: full-precision decimal rendering of a
non-negative integer, as Python str of an int produces (no scientific
notation); the Normalizer source that performs this coercion is absent. -/
def natToDecString (n : Nat) : String :=
  if n = 0 then "0"
  else String.mk (((decDigitsRev n n).reverse).map decDigitChar)

/-- Reassemble a number from its decimal digits, least significant first. -/
def ofDigitsRev : List Nat → Nat
  | [] => 0
  | d :: ds => d + 10 * ofDigitsRev ds

/-- Parse a decimal string back to a number (inverse of `natToDecString`). -/
def decStringToNat (s : String) : Nat :=
  ofDigitsRev ((s.data.map (fun c => c.toNat - 48)).reverse)

theorem ofDigitsRev_decDigitsRev (fuel : Nat) :
    ∀ n : Nat, n ≤ fuel → ofDigitsRev (decDigitsRev fuel n) = n := by
  induction fuel with
  | zero => intro n hn; interval_cases n; rfl
  | succ fuel ih =>
      intro n hn
      by_cases h0 : n = 0
      · subst h0; simp [decDigitsRev, ofDigitsRev]
      · have hdiv : n / 10 ≤ fuel := by omega
        simp only [decDigitsRev, h0, if_false, ofDigitsRev]
        rw [ih _ hdiv]
        omega

theorem decDigitsRev_lt_ten (fuel : Nat) :
    ∀ n d : Nat, d ∈ decDigitsRev fuel n → d < 10 := by
  induction fuel with
  | zero => intro n d hd; simp [decDigitsRev] at hd
  | succ fuel ih =>
      intro n d hd
      by_cases h0 : n = 0
      · subst h0; simp [decDigitsRev] at hd
      · simp only [decDigitsRev, h0, if_false, List.mem_cons] at hd
        rcases hd with h | h
        · omega
        · exact ih _ _ h

theorem decDigitChar_inv (d : Nat) (hd : d < 10) :
    (decDigitChar d).toNat - 48 = d := by
  interval_cases d <;> rfl

/-- The decimal rendering loses no information: parsing it back recovers the
exact integer, for every natural number. -/
theorem decStringToNat_natToDecString (n : Nat) :
    decStringToNat (natToDecString n) = n := by
  by_cases h0 : n = 0
  · subst h0; rfl
  · unfold natToDecString
    rw [if_neg h0]
    unfold decStringToNat
    have hdata : (String.mk (((decDigitsRev n n).reverse).map decDigitChar)).data
        = ((decDigitsRev n n).reverse).map decDigitChar := rfl
    rw [hdata, List.map_map]
    have hmap : ((decDigitsRev n n).reverse).map ((fun c => c.toNat - 48) ∘ decDigitChar)
        = ((decDigitsRev n n).reverse).map id := by
      apply List.map_congr_left
      intro d hd
      have : d < 10 := decDigitsRev_lt_ten n n d (List.mem_reverse.mp hd)
      exact decDigitChar_inv d this
    rw [hmap, List.map_id, List.reverse_reverse,
      ofDigitsRev_decDigitsRev n n (le_refl n)]

/-! ### Scalar distinct ids and their coercion -/

/-- A scalar distinct id as supplied by the caller: a string, a non-negative
integer, or Python None. -/
inductive Scalar where
  | str : String → Scalar
  | int : Nat → Scalar
  | null : Scalar

/-- Modelled from the spec: the Normalizer coercion of a scalar distinct id
to its on-wire string (strings pass through, integers render in full decimal
precision, None and empty strings are rejected with a validation failure);
the Normalizer source is absent. -/
def stringifyDistinctId : Scalar → Option String
  | .str s => if s = "" then none else some s
  | .int n => some (natToDecString n)
  | .null => none

/-! ### Records and the message normalizer -/

/-- An outgoing event record as put on the wire: event name, coerced
distinct id, and the property map.  (Timestamp and uuid stamping are not
needed by the checked claims and are omitted from the embedding.) -/
structure Record where
  event : String
  distinct_id : String
  properties : PropMap

/-- Modelled from the spec: the version constant of the library tag
properties; posthog/version.py is absent from the sources. -/
def lib_version : String := "posthog-python-version"

/-- The library tag properties stamped on every record. -/
def libProps : PropMap :=
  [("$lib", .str "posthog-python"), ("$lib_version", .str lib_version)]

/-- Modelled from the spec: the properties of a capture record.  When
`send_feature_flags` is true and the all-flags evaluation succeeded
(`flagEval = some flags`), each `flag → variant` pair is merged as
`$feature/<flag> = <variant>` and `$active_feature_flags` is added with the
keys whose variant is truthy; an evaluation error (`flagEval = none`) is
swallowed and the properties ship without flag entries. -/
def captureProps (props : PropMap) (send_feature_flags : Bool)
    (flagEval : Option FlagMap) : PropMap :=
  let base := props ++ libProps
  if send_feature_flags then
    match flagEval with
    | some flags =>
        base ++ flags.map (fun p => ("$feature/" ++ p.1, p.2))
          ++ [("$active_feature_flags",
                .strList ((flags.filter fun p => truthy p.2).map Prod.fst))]
    | none => base
  else base

/-- Modelled from the spec: build a capture record.  Returns the record
(none on a distinct-id validation failure) together with the number of
all-flags evaluations performed (1 exactly when `send_feature_flags`). -/
def capture_build (distinct_id : Scalar) (event : String) (props : PropMap)
    (send_feature_flags : Bool) (flagEval : Option FlagMap) :
    Option Record × Nat :=
  (match stringifyDistinctId distinct_id with
   | none => none
   | some d =>
       some { event := event, distinct_id := d,
              properties := captureProps props send_feature_flags flagEval },
   if send_feature_flags then 1 else 0)

/-- Modelled from the spec: build an identify record (`$set` carries the
supplied properties). -/
def identify_msg (distinct_id : Scalar) (props : PropMap) : Option Record :=
  (stringifyDistinctId distinct_id).map fun d =>
    { event := "$identify", distinct_id := d,
      properties := [("$set", .dict props)] ++ libProps }

/-- Modelled from the spec: build a set record. -/
def set_msg (distinct_id : Scalar) (props : PropMap) : Option Record :=
  (stringifyDistinctId distinct_id).map fun d =>
    { event := "$set", distinct_id := d,
      properties := [("$set", .dict props)] ++ libProps }

/-- Modelled from the spec: build a set-once record. -/
def set_once_msg (distinct_id : Scalar) (props : PropMap) : Option Record :=
  (stringifyDistinctId distinct_id).map fun d =>
    { event := "$set_once", distinct_id := d,
      properties := [("$set_once", .dict props)] ++ libProps }

/-- Modelled from the spec: build an alias record. -/
def alias_msg (previous_id distinct_id : Scalar) : Option Record :=
  match stringifyDistinctId previous_id, stringifyDistinctId distinct_id with
  | some p, some d =>
      some { event := "$create_alias", distinct_id := d,
             properties := [("distinct_id", .str p), ("alias", .str d)]
               ++ libProps }
  | _, _ => none

/-- Modelled from the spec: build a group-identify record, with the
synthetic distinct id and the conventional group property keys; an absent
properties argument defaults to the empty map. -/
def group_identify_msg (group_type group_key : String)
    (props : Option PropMap) : Record :=
  { event := "$groupidentify",
    distinct_id := "$" ++ group_type ++ "_" ++ group_key,
    properties :=
      [("$group_type", .str group_type),
       ("$group_key", .str group_key),
       ("$group_set", .dict (props.getD []))] ++ libProps }

/-- Modelled from the spec: build a page record. -/
def page_msg (distinct_id : Scalar) (url : String) (props : PropMap) :
    Option Record :=
  (stringifyDistinctId distinct_id).map fun d =>
    { event := "$pageview", distinct_id := d,
      properties := props ++ [("$current_url", .str url)] ++ libProps }

/-- Modelled from the spec: build a screen record. -/
def screen_msg (distinct_id : Scalar) (name : String) (props : PropMap) :
    Option Record :=
  (stringifyDistinctId distinct_id).map fun d =>
    { event := "$screen", distinct_id := d,
      properties := props ++ [("$screen_name", .str name)] ++ libProps }

/-! ### Flag evaluation outcomes -/

/-- The outcome of evaluating one feature flag, with any exception during
local evaluation or transport folded into the `error` constructor. -/
inductive FlagEval where
  | ok : PValue → FlagEval
  | error : String → FlagEval

/-- Modelled from the spec: get_feature_flag surfaces the evaluated value
and returns undefined (none) on any flag-evaluation error; the Client
source is absent. -/
def get_feature_flag_result : FlagEval → Option PValue
  | .ok v => some v
  | .error _ => none

/-- Modelled from the spec: feature_enabled coerces the flag value to a
boolean by truthiness and returns false on any error, never raising to the
caller; the Client source is absent. -/
def feature_enabled_result (e : FlagEval) : Bool :=
  match get_feature_flag_result e with
  | some v => truthy v
  | none => false

/-! ### The bounded queue -/

/-- Modelled from the spec: the bounded FIFO between producers and the
consumer workers; the Queue source is absent. -/
structure BQueue where
  capacity : Nat
  items : List Record

/-- Modelled from the spec: non-blocking put.  Succeeds exactly when the
size is below capacity, otherwise fails immediately leaving the queue
unchanged; it never blocks the producer. -/
def BQueue.put (q : BQueue) (r : Record) : Bool × BQueue :=
  if q.items.length < q.capacity
  then (true, { q with items := q.items ++ [r] })
  else (false, q)

/-- Run a sequence of puts, discarding the success flags. -/
def BQueue.putAll (q : BQueue) : List Record → BQueue
  | [] => q
  | r :: rs => ((q.put r).2).putAll rs

/-! ### The client -/

/-- The constructor settings captured by a client at creation time,
mirroring the arguments the facade passes to the Client constructor.  (The
on_error callback is function-valued and outside the shallow embedding.) -/
structure ClientConfig where
  api_key : Option String
  host : Option String
  debug : Bool
  send : Bool
  sync_mode : Bool
  personal_api_key : Option String
  project_api_key : Option String
  poll_interval : Nat

/-- Modelled from the spec: the client state — its frozen constructor
configuration, the bounded queue, the consumer worker liveness flags, and
the batches already handed to the uploader; the Client source is absent. -/
structure Client where
  config : ClientConfig
  flush_at : Nat
  queue : BQueue
  consumers : List Bool
  uploaded : List (List Record)

/-- Modelled from the spec: client construction with the default
max_queue_size 10000, flush_at 100, and one consumer worker. -/
def Client.create (cfg : ClientConfig) : Client :=
  { config := cfg, flush_at := 100,
    queue := { capacity := 10000, items := [] },
    consumers := [true], uploaded := [] }

/-- Enqueue a record through the bounded queue, reporting success. -/
def Client.enqueue (c : Client) (r : Record) : Bool × Client :=
  let (ok, q) := c.queue.put r
  (ok, { c with queue := q })

/-- Hand a built message to the queue: a validation failure returns
`(false, none)` without touching the queue; otherwise the enqueue outcome
and the record are returned, as the Client record-producing methods do. -/
def Client.track (c : Client) (msg : Option Record) :
    (Bool × Option Record) × Client :=
  match msg with
  | none => ((false, none), c)
  | some r =>
      let (ok, c') := c.enqueue r
      ((ok, some r), c')

/-- Split a list of pending records into upload batches of `k` records,
with `fuel` bounding the recursion (enough whenever `fuel ≥ length`). -/
def chunksFuel (k : Nat) : Nat → List Record → List (List Record)
  | 0, _ => []
  | _ + 1, [] => []
  | fuel + 1, r :: rest =>
      (r :: rest).take k :: chunksFuel k fuel ((r :: rest).drop k)

/-- Modelled from the spec: flush drains the queue fully into batches of at
most flush_at records and hands every batch to the uploader, leaving the
queue empty; workers are not stopped. -/
def Client.flush (c : Client) : Client :=
  { c with
    queue := { c.queue with items := [] },
    uploaded := c.uploaded
      ++ chunksFuel c.flush_at c.queue.items.length c.queue.items }

/-- Modelled from the spec: join waits for the consumer workers to
terminate, after which none is alive. -/
def Client.join (c : Client) : Client :=
  { c with consumers := c.consumers.map fun _ => false }

/-- Modelled from the spec: client shutdown is flush then join. -/
def Client.shutdown (c : Client) : Client := c.flush.join

/-! ### Client calls and their interpretation -/

/-- The return value of a client method. -/
inductive RetVal where
  | captureRes : Bool → Option Record → RetVal
  | boolRes : Bool → RetVal
  | flagRes : Option PValue → RetVal
  | flagsRes : FlagMap → RetVal
  | unitRes : RetVal

/-- One public client method call with its arguments.  Network-determined
outcomes (flag evaluation results) are supplied as data, modelling the
environment. -/
inductive ClientCall where
  | capture (distinct_id : Scalar) (event : String) (props : PropMap)
      (send_feature_flags : Bool) (flagEval : Option FlagMap)
  | identify (distinct_id : Scalar) (props : PropMap)
  | set (distinct_id : Scalar) (props : PropMap)
  | set_once (distinct_id : Scalar) (props : PropMap)
  | alias (previous_id distinct_id : Scalar)
  | group_identify (group_type group_key : String) (props : Option PropMap)
  | page (distinct_id : Scalar) (url : String) (props : PropMap)
  | screen (distinct_id : Scalar) (name : String) (props : PropMap)
  | feature_enabled (key : String) (distinct_id : Scalar) (eval : FlagEval)
  | get_feature_flag (key : String) (distinct_id : Scalar) (eval : FlagEval)
  | get_all_flags (distinct_id : Scalar) (eval : Option FlagMap)
  | flush
  | join

/-- Interpret one client method call on a client state. -/
def applyCall : ClientCall → Client → Client × RetVal
  | .capture did ev props sff fe, c =>
      let ((ok, mr), c') := c.track (capture_build did ev props sff fe).1
      (c', .captureRes ok mr)
  | .identify did props, c =>
      let ((ok, mr), c') := c.track (identify_msg did props)
      (c', .captureRes ok mr)
  | .set did props, c =>
      let ((ok, mr), c') := c.track (set_msg did props)
      (c', .captureRes ok mr)
  | .set_once did props, c =>
      let ((ok, mr), c') := c.track (set_once_msg did props)
      (c', .captureRes ok mr)
  | .alias pid did, c =>
      let ((ok, mr), c') := c.track (alias_msg pid did)
      (c', .captureRes ok mr)
  | .group_identify gt gk props, c =>
      let ((ok, mr), c') := c.track (some (group_identify_msg gt gk props))
      (c', .captureRes ok mr)
  | .page did url props, c =>
      let ((ok, mr), c') := c.track (page_msg did url props)
      (c', .captureRes ok mr)
  | .screen did name props, c =>
      let ((ok, mr), c') := c.track (screen_msg did name props)
      (c', .captureRes ok mr)
  | .feature_enabled _ _ e, c => (c, .boolRes (feature_enabled_result e))
  | .get_feature_flag _ _ e, c => (c, .flagRes (get_feature_flag_result e))
  | .get_all_flags _ fe, c => (c, .flagsRes (fe.getD []))
  | .flush, c => (c.flush, .unitRes)
  | .join, c => (c.join, .unitRes)

/-! ### The module facade (posthog/proxy module, from the source) -/

/-- The module-level settings of the facade module, as in the source: the
client constructor settings plus the `disabled` switch.  (The on_error
callback is function-valued and outside the shallow embedding.) -/
structure Settings where
  api_key : Option String := none
  host : Option String := none
  debug : Bool := false
  send : Bool := true
  sync_mode : Bool := false
  disabled : Bool := false
  personal_api_key : Option String := none
  project_api_key : Option String := none
  poll_interval : Nat := 30

/-- The constructor arguments the facade passes to the Client, read from
the settings at construction time (source lines 371 to 381). -/
def Settings.toConfig (s : Settings) : ClientConfig :=
  { api_key := s.api_key, host := s.host, debug := s.debug, send := s.send,
    sync_mode := s.sync_mode, personal_api_key := s.personal_api_key,
    project_api_key := s.project_api_key, poll_interval := s.poll_interval }

/-- The facade module state: the settings and the process-wide lazily
constructed default client handle. -/
structure ModuleState where
  settings : Settings
  default_client : Option Client := none

/-- The facade proxy (source lines 365 to 384): a no-op returning None when
`disabled`; otherwise the default client is constructed from the current
settings if absent, and the requested method is invoked on it.  The third
component counts client method invocations. -/
def proxyRun (m : ModuleState) (f : Client → Client × RetVal) :
    ModuleState × Option RetVal × Nat :=
  if m.settings.disabled then (m, none, 0)
  else
    let c := match m.default_client with
             | some c => c
             | none => Client.create m.settings.toConfig
    let (c', r) := f c
    ({ m with default_client := some c' }, some r, 1)

/-- Module-level capture: proxies and discards the client result. -/
def module_capture (m : ModuleState) (did : Scalar) (ev : String)
    (props : PropMap) (sff : Bool) (fe : Option FlagMap) :
    ModuleState × Option RetVal × Nat :=
  let (m', _, n) := proxyRun m (applyCall (.capture did ev props sff fe))
  (m', none, n)

/-- Module-level identify: proxies and discards the client result. -/
def module_identify (m : ModuleState) (did : Scalar) (props : PropMap) :
    ModuleState × Option RetVal × Nat :=
  let (m', _, n) := proxyRun m (applyCall (.identify did props))
  (m', none, n)

/-- Module-level set: proxies and discards the client result. -/
def module_set (m : ModuleState) (did : Scalar) (props : PropMap) :
    ModuleState × Option RetVal × Nat :=
  let (m', _, n) := proxyRun m (applyCall (.set did props))
  (m', none, n)

/-- Module-level set_once: proxies and discards the client result. -/
def module_set_once (m : ModuleState) (did : Scalar) (props : PropMap) :
    ModuleState × Option RetVal × Nat :=
  let (m', _, n) := proxyRun m (applyCall (.set_once did props))
  (m', none, n)

/-- Module-level alias: proxies and discards the client result. -/
def module_alias (m : ModuleState) (pid did : Scalar) :
    ModuleState × Option RetVal × Nat :=
  let (m', _, n) := proxyRun m (applyCall (.alias pid did))
  (m', none, n)

/-- Module-level group_identify: proxies and discards the client result. -/
def module_group_identify (m : ModuleState) (gt gk : String)
    (props : Option PropMap) : ModuleState × Option RetVal × Nat :=
  let (m', _, n) := proxyRun m (applyCall (.group_identify gt gk props))
  (m', none, n)

/-- Module-level page: proxies and discards the client result. -/
def module_page (m : ModuleState) (did : Scalar) (url : String)
    (props : PropMap) : ModuleState × Option RetVal × Nat :=
  let (m', _, n) := proxyRun m (applyCall (.page did url props))
  (m', none, n)

/-- Module-level screen: proxies and discards the client result. -/
def module_screen (m : ModuleState) (did : Scalar) (name : String)
    (props : PropMap) : ModuleState × Option RetVal × Nat :=
  let (m', _, n) := proxyRun m (applyCall (.screen did name props))
  (m', none, n)

/-- Module-level feature_enabled: returns the proxied client result. -/
def module_feature_enabled (m : ModuleState) (key : String) (did : Scalar)
    (e : FlagEval) : ModuleState × Option RetVal × Nat :=
  proxyRun m (applyCall (.feature_enabled key did e))

/-- Module-level get_feature_flag: returns the proxied client result. -/
def module_get_feature_flag (m : ModuleState) (key : String) (did : Scalar)
    (e : FlagEval) : ModuleState × Option RetVal × Nat :=
  proxyRun m (applyCall (.get_feature_flag key did e))

/-- Module-level get_all_flags: returns the proxied client result. -/
def module_get_all_flags (m : ModuleState) (did : Scalar)
    (fe : Option FlagMap) : ModuleState × Option RetVal × Nat :=
  proxyRun m (applyCall (.get_all_flags did fe))

/-- Module-level flush: proxies and discards the client result. -/
def module_flush (m : ModuleState) : ModuleState × Option RetVal × Nat :=
  let (m', _, n) := proxyRun m (applyCall .flush)
  (m', none, n)

/-- Module-level join: proxies and discards the client result. -/
def module_join (m : ModuleState) : ModuleState × Option RetVal × Nat :=
  let (m', _, n) := proxyRun m (applyCall .join)
  (m', none, n)

/-- Module-level shutdown (source lines 359 to 362): proxy a flush, then
proxy a join, returning None. -/
def module_shutdown (m : ModuleState) : ModuleState × Option RetVal × Nat :=
  let (m₁, _, n₁) := proxyRun m (applyCall .flush)
  let (m₂, _, n₂) := proxyRun m₁ (applyCall .join)
  (m₂, none, n₁ + n₂)

/-! ### Module histories -/

/-- One event in the life of the facade module: a change of the module
settings, or an API call routed through the proxy. -/
inductive ModuleEvent where
  | configure : Settings → ModuleEvent
  | api : ClientCall → ModuleEvent

/-- Apply one module event to the module state. -/
def stepEvent (m : ModuleState) : ModuleEvent → ModuleState
  | .configure s => { m with settings := s }
  | .api call => (proxyRun m (applyCall call)).1

/-- Run a sequence of module events. -/
def runEvents (m : ModuleState) (evs : List ModuleEvent) : ModuleState :=
  evs.foldl stepEvent m

/-! ### Repeated identify calls (for the overflow scenario) -/

/-- The success flags of `n` consecutive identify calls on a client, with
no consumer draining in between. -/
def Client.identifyResults (c : Client) : Nat → List Bool
  | 0 => []
  | n + 1 =>
      let ((ok, _), c') := c.track (identify_msg (.str "distinct_id") [])
      ok :: c'.identifyResults n

/-! ### Sample values used by the witnesses -/

/-- A sample client configuration. -/
def sampleConfig : ClientConfig :=
  { api_key := some "key", host := none, debug := false, send := true,
    sync_mode := false, personal_api_key := none, project_api_key := none,
    poll_interval := 30 }

/-- A sample record. -/
def sampleRecord : Record :=
  { event := "python test event", distinct_id := "distinct_id",
    properties := libProps }

/-- A sample client with two pending records. -/
def sampleClient : Client :=
  { Client.create sampleConfig with
    queue := { capacity := 10000, items := [sampleRecord, sampleRecord] } }

/-- A sample module state whose default client is constructed. -/
def sampleModule : ModuleState :=
  { settings := {}, default_client := some sampleClient }

/-- A sample module state with `disabled` set and no client. -/
def disabledModule : ModuleState :=
  { settings := { disabled := true }, default_client := none }

/-! ## Helper lemmas -/

theorem BQueue.put_capacity (q : BQueue) (r : Record) :
    ((q.put r).2).capacity = q.capacity := by
  unfold BQueue.put; split <;> rfl

theorem BQueue.put_length (q : BQueue) (r : Record)
    (h : q.items.length ≤ q.capacity) :
    ((q.put r).2).items.length ≤ q.capacity := by
  unfold BQueue.put; split <;> simp <;> omega

theorem BQueue.putAll_bound (rs : List Record) :
    ∀ q : BQueue, q.items.length ≤ q.capacity →
      ((q.putAll rs).items.length ≤ q.capacity
        ∧ (q.putAll rs).capacity = q.capacity) := by
  induction rs with
  | nil => intro q h; exact ⟨h, rfl⟩
  | cons r rs ih =>
      intro q h
      have hlen := BQueue.put_length q r h
      have hcap := BQueue.put_capacity q r
      have hrec := ih ((q.put r).2) (by rw [hcap]; exact hlen)
      simp only [BQueue.putAll]
      exact ⟨le_trans hrec.1 (le_of_eq hcap), hrec.2.trans hcap⟩

theorem BQueue.put_full (q : BQueue) (r : Record)
    (h : q.capacity ≤ q.items.length) : q.put r = (false, q) := by
  unfold BQueue.put
  rw [if_neg (by omega)]

theorem identifyResults_full (n : Nat) :
    ∀ c : Client, c.queue.capacity ≤ c.queue.items.length →
      c.identifyResults n = List.replicate n false := by
  induction n with
  | zero => intro c _; rfl
  | succ n ih =>
      intro c h
      have hmsg : identify_msg (.str "distinct_id") [] =
          some { event := "$identify", distinct_id := "distinct_id",
                 properties := [("$set", .dict [])] ++ libProps } := rfl
      simp only [Client.identifyResults, hmsg, Client.track, Client.enqueue,
        BQueue.put_full _ _ h]
      rw [List.replicate_succ, ih c h]

theorem chunksFuel_join (k : Nat) (hk : 0 < k) :
    ∀ (fuel : Nat) (l : List Record), l.length ≤ fuel →
      (chunksFuel k fuel l).flatten = l := by
  intro fuel
  induction fuel with
  | zero =>
      intro l hl
      have : l = [] := List.eq_nil_of_length_eq_zero (by omega)
      subst this; rfl
  | succ fuel ih =>
      intro l hl
      cases l with
      | nil => rfl
      | cons r rest =>
          simp only [chunksFuel, List.flatten]
          rw [ih _ (by simp at hl ⊢; omega)]
          exact List.take_append_drop k (r :: rest)

theorem Client.flush_of_drained (c : Client) (h : c.queue.items = []) :
    c.flush = c := by
  obtain ⟨cfg, fa, ⟨cap, items⟩, cons, up⟩ := c
  simp only at h
  subst h
  simp [Client.flush, chunksFuel]

theorem Client.join_join (c : Client) : c.join.join = c.join := by
  simp [Client.join, List.map_map, Function.comp]

theorem Client.shutdown_shutdown (c : Client) :
    c.shutdown.shutdown = c.shutdown := by
  unfold Client.shutdown
  rw [Client.flush_of_drained (c.flush.join) rfl, Client.join_join]

theorem Client.flushJoin_flushJoin (c : Client) :
    c.flush.join.flush.join = c.flush.join := Client.shutdown_shutdown c

/-! ## Claim theorems -/

/-- Claim C1: for every sequence of puts the queue size never exceeds the
capacity (`max_queue_size`); a put issued while the queue is full fails
immediately, returning false without blocking and leaving the queue
unchanged; and on a client with `max_queue_size = 1` and no consumer
draining, the first identify call succeeds and every subsequent identify
call returns false. -/
theorem c1_queue_bound_and_overflow :
    (∀ (q : BQueue) (rs : List Record), q.items.length ≤ q.capacity →
      (q.putAll rs).items.length ≤ q.capacity)
    ∧ (∀ (q : BQueue) (r : Record), q.capacity ≤ q.items.length →
        q.put r = (false, q))
    ∧ (∀ (c : Client) (n : Nat), c.queue.capacity = 1 → c.queue.items = [] →
        c.identifyResults (n + 1) = true :: List.replicate n false) := by
  refine ⟨fun q rs h => (BQueue.putAll_bound rs q h).1, BQueue.put_full, ?_⟩
  intro c n hcap hempty
  have hmsg : identify_msg (.str "distinct_id") [] =
      some { event := "$identify", distinct_id := "distinct_id",
             properties := [("$set", .dict [])] ++ libProps } := rfl
  simp only [Client.identifyResults, hmsg, Client.track, Client.enqueue,
    BQueue.put]
  rw [if_pos (by rw [hcap, hempty]; simp)]
  rw [identifyResults_full n _ (by simp [hempty, hcap])]

/-- Witness for C1 at a concrete client of capacity 1: three identify
calls yield success flags true, false, false. -/
theorem c1_witness :
    ({ Client.create sampleConfig with
        queue := { capacity := 1, items := [] } } : Client).identifyResults 3
      = [true, false, false] :=
  c1_queue_bound_and_overflow.2.2
    { Client.create sampleConfig with queue := { capacity := 1, items := [] } }
    2 rfl rfl

/-- Claim C2: the on-wire distinct id is the canonical string form of the
scalar: strings pass through unchanged, integers render in full decimal
precision with no loss up to 2 to the 63 (parsing the rendering recovers
the integer exactly), the given 18-digit example renders digit for digit,
and None or empty distinct ids are rejected with a validation failure. -/
theorem c2_distinct_id_coercion :
    (∀ s : String, s ≠ "" → stringifyDistinctId (.str s) = some s)
    ∧ (∀ n : Nat, n ≤ 2 ^ 63 →
        stringifyDistinctId (.int n) = some (natToDecString n)
          ∧ decStringToNat (natToDecString n) = n)
    ∧ (∀ did ev props sff fe,
        ((capture_build did ev props sff fe).1).map Record.distinct_id
          = stringifyDistinctId did)
    ∧ stringifyDistinctId (.int 157963456373623802)
        = some "157963456373623802"
    ∧ stringifyDistinctId .null = none
    ∧ stringifyDistinctId (.str "") = none := by
  refine ⟨?_, ?_, ?_, by decide, rfl, rfl⟩
  · intro s hs; simp [stringifyDistinctId, hs]
  · intro n _
    exact ⟨rfl, decStringToNat_natToDecString n⟩
  · intro did ev props sff fe
    simp only [capture_build]
    cases stringifyDistinctId did <;> rfl

/-- Witness for C2 at concrete scalars: a plain string id and the integer
42 both coerce to their canonical forms. -/
theorem c2_witness :
    stringifyDistinctId (.str "distinct_id") = some "distinct_id"
    ∧ (stringifyDistinctId (.int 42) = some (natToDecString 42)
        ∧ decStringToNat (natToDecString 42) = 42) :=
  ⟨c2_distinct_id_coercion.1 "distinct_id" (by decide),
   c2_distinct_id_coercion.2.1 42 (by norm_num)⟩

/-- Claim C3: feature_enabled never raises to the caller and returns false
on any flag-evaluation error (including a raising flag-definition fetch),
while get_feature_flag returns undefined (none) on such errors; the
enclosing client state is untouched. -/
theorem c3_flag_errors_never_raise :
    (∀ msg : String, feature_enabled_result (.error msg) = false
        ∧ get_feature_flag_result (.error msg) = none)
    ∧ (∀ v : PValue, feature_enabled_result (.ok v) = truthy v)
    ∧ (∀ (key : String) (did : Scalar) (msg : String) (c : Client),
        applyCall (.feature_enabled key did (.error msg)) c
          = (c, .boolRes false)
        ∧ applyCall (.get_feature_flag key did (.error msg)) c
          = (c, .flagRes none)) := by
  exact ⟨fun msg => ⟨rfl, rfl⟩, fun v => rfl,
    fun key did msg c => ⟨rfl, rfl⟩⟩

/-- Claim C6: group_identify builds a record with event $groupidentify,
synthetic distinct id equal to the dollar sign, the group type, an
underscore, and the group key concatenated, and properties carrying the
group type, the group key, and the supplied properties as the group set
(the empty map when absent). -/
theorem c6_group_identify_record :
    ∀ (gt gk : String) (props : Option PropMap),
      (group_identify_msg gt gk props).event = "$groupidentify"
      ∧ (group_identify_msg gt gk props).distinct_id
          = "$" ++ gt ++ "_" ++ gk
      ∧ getProp (group_identify_msg gt gk props).properties "$group_type"
          = some (.str gt)
      ∧ getProp (group_identify_msg gt gk props).properties "$group_key"
          = some (.str gk)
      ∧ getProp (group_identify_msg gt gk props).properties "$group_set"
          = some (.dict (props.getD [])) := by
  intro gt gk props
  exact ⟨rfl, rfl, rfl, rfl, rfl⟩

/-- Claim C7: with send_feature_flags true and a successful all-flags
evaluation, the capture record properties contain a feature entry for
every returned flag-variant pair and the active-feature-flags list of the
truthy keys, and exactly one all-flags evaluation happens; an evaluation
error is swallowed, the record is still accepted whenever the distinct id
is valid, and its properties carry no flag entries; with
send_feature_flags false no evaluation happens and the properties are
exactly the caller properties plus the library tags. -/
theorem c7_feature_flag_stamping :
    (∀ (did : Scalar) (ev : String) (props : PropMap) (flags : FlagMap)
        (k : String) (v : PValue) (r : Record),
        (k, v) ∈ flags →
        (capture_build did ev props true (some flags)).1 = some r →
        ("$feature/" ++ k, v) ∈ r.properties
        ∧ ("$active_feature_flags",
            .strList ((flags.filter fun p => truthy p.2).map Prod.fst))
              ∈ r.properties)
    ∧ (∀ (did : Scalar) (ev : String) (props : PropMap),
        ((capture_build did ev props true none).1).isSome
            = (stringifyDistinctId did).isSome
        ∧ ∀ r : Record, (capture_build did ev props true none).1 = some r →
            r.properties = props ++ libProps)
    ∧ (∀ (did : Scalar) (ev : String) (props : PropMap)
        (fe : Option FlagMap),
        (capture_build did ev props false fe).2 = 0
        ∧ ∀ r : Record, (capture_build did ev props false fe).1 = some r →
            r.properties = props ++ libProps)
    ∧ (∀ (did : Scalar) (ev : String) (props : PropMap) (flags : FlagMap),
        (capture_build did ev props true (some flags)).2 = 1) := by
  refine ⟨?_, ?_, ?_, fun _ _ _ _ => rfl⟩
  · intro did ev props flags k v r hmem hr
    simp only [capture_build] at hr
    cases hdid : stringifyDistinctId did with
    | none => rw [hdid] at hr; simp at hr
    | some d =>
        rw [hdid] at hr
        simp only [Option.some.injEq] at hr
        subst hr
        simp only [captureProps, if_pos]
        constructor
        · apply List.mem_append_left
          apply List.mem_append_right
          exact List.mem_map.mpr ⟨(k, v), hmem, rfl⟩
        · apply List.mem_append_right
          simp
  · intro did ev props
    constructor
    · simp only [capture_build]
      cases stringifyDistinctId did <;> rfl
    · intro r hr
      simp only [capture_build] at hr
      cases hdid : stringifyDistinctId did with
      | none => rw [hdid] at hr; simp at hr
      | some d =>
          rw [hdid] at hr
          simp only [Option.some.injEq] at hr
          subst hr
          rfl
  · intro did ev props fe
    refine ⟨rfl, ?_⟩
    intro r hr
    simp only [capture_build] at hr
    cases hdid : stringifyDistinctId did with
    | none => rw [hdid] at hr; simp at hr
    | some d =>
        rw [hdid] at hr
        simp only [Option.some.injEq] at hr
        subst hr
        rfl

/-- Witness for C7 at the concrete flag map of the test: flag beta-feature
with variant random-variant is stamped and listed active. -/
theorem c7_witness :
    (("$feature/" ++ "beta-feature", PValue.str "random-variant")
        ∈ (({ event := "python test event", distinct_id := "distinct_id",
              properties := captureProps [] true
                (some [("beta-feature", .str "random-variant")]) } : Record)).properties
      ∧ ("$active_feature_flags",
          PValue.strList
            (((([("beta-feature", PValue.str "random-variant")] : FlagMap).filter
                fun p => truthy p.2)).map Prod.fst))
          ∈ (({ event := "python test event", distinct_id := "distinct_id",
                properties := captureProps [] true
                  (some [("beta-feature", .str "random-variant")]) } : Record)).properties) :=
  c7_feature_flag_stamping.1 (.str "distinct_id") "python test event" []
    [("beta-feature", .str "random-variant")] "beta-feature"
    (.str "random-variant") _ (List.mem_singleton.mpr rfl) rfl

/-- Claim C4: whatever records were enqueued before, after client shutdown
the queue is empty, no consumer worker is alive, and every pending record
has been drained and handed to the uploader (the uploaded batches flatten
to the previously uploaded records followed by the whole pending queue). -/
theorem c4_shutdown_drains (c : Client) (h : 0 < c.flush_at) :
    c.shutdown.queue.items = []
    ∧ (∀ b ∈ c.shutdown.consumers, b = false)
    ∧ c.shutdown.uploaded.flatten
        = c.uploaded.flatten ++ c.queue.items := by
  refine ⟨rfl, ?_, ?_⟩
  · intro b hb
    simp only [Client.shutdown, Client.join, Client.flush,
      List.mem_map] at hb
    obtain ⟨_, _, hb⟩ := hb
    exact hb.symm
  · simp only [Client.shutdown, Client.join, Client.flush,
      List.flatten_append]
    rw [chunksFuel_join c.flush_at h _ _ (le_refl _)]

/-- Witness for C4 at a concrete client holding two pending records. -/
theorem c4_witness :
    sampleClient.shutdown.queue.items = []
    ∧ (∀ b ∈ sampleClient.shutdown.consumers, b = false)
    ∧ sampleClient.shutdown.uploaded.flatten
        = sampleClient.uploaded.flatten ++ sampleClient.queue.items :=
  c4_shutdown_drains sampleClient (by norm_num [sampleClient, Client.create])

/-- Claim C5: the module-level shutdown is exactly a proxied flush followed
by a proxied join, in that order, returning None; and shutdown is
idempotent — a second shutdown leaves the module (settings, default client
handle and client state) exactly as the first left it. -/
theorem c5_shutdown_flush_join_idempotent :
    (∀ m : ModuleState,
      module_shutdown m
        = ((module_join (module_flush m).1).1, none,
            (module_flush m).2.2 + (module_join (module_flush m).1).2.2))
    ∧ (∀ m : ModuleState,
        (module_shutdown (module_shutdown m).1).1 = (module_shutdown m).1) := by
  constructor
  · intro m; rfl
  · intro m
    by_cases hd : m.settings.disabled
    · simp [module_shutdown, proxyRun, hd]
    · simp only [module_shutdown, proxyRun, hd, Bool.false_eq_true,
        if_false, applyCall]
      cases m.default_client <;> simp only [Client.flushJoin_flushJoin]

theorem proxyRun_disabled (m : ModuleState)
    (h : m.settings.disabled = true) (f : Client → Client × RetVal) :
    proxyRun m f = (m, none, 0) := by
  simp [proxyRun, h]

/-- Claim C8: with the module-level disabled setting true, every
module-level operation leaves the module state unchanged, returns None,
constructs no default client, and invokes no client method (invocation
count 0). -/
theorem c8_disabled_noop (m : ModuleState)
    (h : m.settings.disabled = true) :
    (∀ did ev props sff fe,
        module_capture m did ev props sff fe = (m, none, 0))
    ∧ (∀ did props, module_identify m did props = (m, none, 0))
    ∧ (∀ did props, module_set m did props = (m, none, 0))
    ∧ (∀ did props, module_set_once m did props = (m, none, 0))
    ∧ (∀ pid did, module_alias m pid did = (m, none, 0))
    ∧ (∀ gt gk props, module_group_identify m gt gk props = (m, none, 0))
    ∧ (∀ did url props, module_page m did url props = (m, none, 0))
    ∧ (∀ did name props, module_screen m did name props = (m, none, 0))
    ∧ (∀ key did e, module_feature_enabled m key did e = (m, none, 0))
    ∧ (∀ key did e, module_get_feature_flag m key did e = (m, none, 0))
    ∧ (∀ did fe, module_get_all_flags m did fe = (m, none, 0))
    ∧ module_flush m = (m, none, 0)
    ∧ module_join m = (m, none, 0)
    ∧ module_shutdown m = (m, none, 0) := by
  refine ⟨fun _ _ _ _ _ => ?_, fun _ _ => ?_, fun _ _ => ?_, fun _ _ => ?_,
    fun _ _ => ?_, fun _ _ _ => ?_, fun _ _ _ => ?_, fun _ _ _ => ?_,
    fun _ _ _ => ?_, fun _ _ _ => ?_, fun _ _ => ?_, ?_, ?_, ?_⟩ <;>
  simp [module_capture, module_identify, module_set, module_set_once,
    module_alias, module_group_identify, module_page, module_screen,
    module_feature_enabled, module_get_feature_flag, module_get_all_flags,
    module_flush, module_join, module_shutdown, proxyRun_disabled m h]

/-- Witness for C8 at the concrete disabled module state: a capture and a
shutdown are both complete no-ops. -/
theorem c8_witness :
    module_capture disabledModule (.str "distinct_id") "python test event"
        [] false none = (disabledModule, none, 0)
    ∧ module_shutdown disabledModule = (disabledModule, none, 0) :=
  ⟨(c8_disabled_noop disabledModule rfl).1 (.str "distinct_id")
      "python test event" [] false none,
   (c8_disabled_noop disabledModule rfl).2.2.2.2.2.2.2.2.2.2.2.2.2⟩

theorem track_config (c : Client) (msg : Option Record) :
    ((c.track msg).2).config = c.config := by
  cases msg with
  | none => rfl
  | some r =>
      simp only [Client.track, Client.enqueue, BQueue.put]

theorem applyCall_config (call : ClientCall) (c : Client) :
    ((applyCall call c).1).config = c.config := by
  cases call <;>
    first
      | rfl
      | (simp only [applyCall]; exact track_config _ _)

theorem stepEvent_client (m : ModuleState) (ev : ModuleEvent) (c : Client)
    (h : m.default_client = some c) :
    ∃ c', (stepEvent m ev).default_client = some c'
      ∧ c'.config = c.config := by
  cases ev with
  | configure s => exact ⟨c, h, rfl⟩
  | api call =>
      simp only [stepEvent, proxyRun]
      by_cases hd : m.settings.disabled
      · simp [hd]; exact ⟨c, h, rfl⟩
      · simp only [hd, Bool.false_eq_true, if_false, h]
        exact ⟨(applyCall call c).1, rfl, applyCall_config call c⟩

/-- Claim C9: the default client is constructed at most once — once the
handle holds a client, every later event (settings changes and API calls
alike) keeps a client with that same construction-time configuration; the
first constructing call takes the configuration from the settings at that
moment; module shutdown does not clear the handle; and once the client
exists, the non-disabled settings have no effect on how a call changes the
client or on what it returns. -/
theorem c9_default_client_once :
    (∀ (evs : List ModuleEvent) (m : ModuleState) (c : Client),
        m.default_client = some c →
        ∃ c', (runEvents m evs).default_client = some c'
          ∧ c'.config = c.config)
    ∧ (∀ (m : ModuleState) (call : ClientCall),
        m.settings.disabled = false → m.default_client = none →
        ∃ c', (stepEvent m (.api call)).default_client = some c'
          ∧ c'.config = m.settings.toConfig)
    ∧ (∀ (m : ModuleState) (c : Client), m.default_client = some c →
        ∃ c', ((module_shutdown m).1).default_client = some c'
          ∧ c'.config = c.config)
    ∧ (∀ (s₁ s₂ : Settings) (cl : Client) (call : ClientCall),
        s₁.disabled = s₂.disabled →
        (proxyRun ⟨s₁, some cl⟩ (applyCall call)).1.default_client
            = (proxyRun ⟨s₂, some cl⟩ (applyCall call)).1.default_client
        ∧ (proxyRun ⟨s₁, some cl⟩ (applyCall call)).2
            = (proxyRun ⟨s₂, some cl⟩ (applyCall call)).2) := by
  refine ⟨?_, ?_, ?_, ?_⟩
  · intro evs
    induction evs with
    | nil => intro m c h; exact ⟨c, h, rfl⟩
    | cons ev evs ih =>
        intro m c h
        obtain ⟨c₁, h₁, hcfg₁⟩ := stepEvent_client m ev c h
        obtain ⟨c₂, h₂, hcfg₂⟩ := ih (stepEvent m ev) c₁ h₁
        exact ⟨c₂, h₂, hcfg₂.trans hcfg₁⟩
  · intro m call hd hnone
    simp only [stepEvent, proxyRun, hd, Bool.false_eq_true, if_false, hnone]
    exact ⟨(applyCall call (Client.create m.settings.toConfig)).1, rfl,
      applyCall_config call (Client.create m.settings.toConfig)⟩
  · intro m c h
    by_cases hd : m.settings.disabled
    · exact ⟨c, by simp [module_shutdown, proxyRun_disabled m hd, h], rfl⟩
    · simp only [module_shutdown, proxyRun, hd, Bool.false_eq_true,
        if_false, h, applyCall]
      exact ⟨c.flush.join, rfl, rfl⟩
  · intro s₁ s₂ cl call hdis
    simp only [proxyRun, hdis]
    by_cases h2 : s₂.disabled = true <;> simp [h2]

/-- Witness for C9 at concrete inputs: after a configure event and a flush
call the constructed sample client keeps its configuration, a first
identify call on a fresh enabled module constructs the client from the
current settings, and shutdown leaves the handle occupied. -/
theorem c9_witness :
    (∃ c', (runEvents sampleModule
          [.configure { debug := true }, .api .flush]).default_client
        = some c' ∧ c'.config = sampleClient.config)
    ∧ (∃ c', (stepEvent { settings := {} } (.api (.identify
          (.str "distinct_id") []))).default_client = some c'
        ∧ c'.config = Settings.toConfig {})
    ∧ (∃ c', ((module_shutdown sampleModule).1).default_client = some c'
        ∧ c'.config = sampleClient.config) :=
  ⟨c9_default_client_once.1 [.configure { debug := true }, .api .flush]
      sampleModule sampleClient rfl,
   c9_default_client_once.2.1 { settings := {} }
      (.identify (.str "distinct_id") []) rfl rfl,
   c9_default_client_once.2.2.1 sampleModule sampleClient rfl⟩

/-- Claim C10: every module-level record-producing operation returns None,
discarding the accepted-record pair of the underlying client call (so a
queue-full or validation failure is not observable through them), while
feature_enabled, get_feature_flag and get_all_flags propagate the client
result to the module-level caller whenever the module is not disabled. -/
theorem c10_return_values :
    (∀ m did ev props sff fe,
        (module_capture m did ev props sff fe).2.1 = none)
    ∧ (∀ m did props, (module_identify m did props).2.1 = none)
    ∧ (∀ m did props, (module_set m did props).2.1 = none)
    ∧ (∀ m did props, (module_set_once m did props).2.1 = none)
    ∧ (∀ m pid did, (module_alias m pid did).2.1 = none)
    ∧ (∀ m gt gk props, (module_group_identify m gt gk props).2.1 = none)
    ∧ (∀ m did url props, (module_page m did url props).2.1 = none)
    ∧ (∀ m did name props, (module_screen m did name props).2.1 = none)
    ∧ (∀ (m : ModuleState) key did e, m.settings.disabled = false →
        (module_feature_enabled m key did e).2.1
          = some (.boolRes (feature_enabled_result e)))
    ∧ (∀ (m : ModuleState) key did e, m.settings.disabled = false →
        (module_get_feature_flag m key did e).2.1
          = some (.flagRes (get_feature_flag_result e)))
    ∧ (∀ (m : ModuleState) did fe, m.settings.disabled = false →
        (module_get_all_flags m did fe).2.1
          = some (.flagsRes (fe.getD []))) := by
  refine ⟨fun m _ _ _ _ _ => rfl, fun m _ _ => rfl, fun m _ _ => rfl,
    fun m _ _ => rfl, fun m _ _ => rfl, fun m _ _ _ => rfl,
    fun m _ _ _ => rfl, fun m _ _ _ => rfl, ?_, ?_, ?_⟩
  · intro m key did e h
    simp only [module_feature_enabled, proxyRun, h, Bool.false_eq_true,
      if_false]
    cases m.default_client <;> rfl
  · intro m key did e h
    simp only [module_get_feature_flag, proxyRun, h, Bool.false_eq_true,
      if_false]
    cases m.default_client <;> rfl
  · intro m did fe h
    simp only [module_get_all_flags, proxyRun, h, Bool.false_eq_true,
      if_false]
    cases m.default_client <;> rfl

/-- Witness for C10 at a concrete module: feature_enabled propagates the
client boolean while identify returns None even though the client reported
the enqueue outcome. -/
theorem c10_witness :
    (module_feature_enabled sampleModule "beta-feature" (.str "distinct_id")
        (.ok (.str "random-variant"))).2.1
      = some (.boolRes (feature_enabled_result (.ok (.str "random-variant"))))
    ∧ (module_identify sampleModule (.str "distinct_id") []).2.1 = none :=
  ⟨c10_return_values.2.2.2.2.2.2.2.2.1 sampleModule "beta-feature"
      (.str "distinct_id") (.ok (.str "random-variant")) rfl,
   c10_return_values.2.1 sampleModule (.str "distinct_id") []⟩

end Posthog
